import Mathlib

/-!
Verification of the bcplpp compiler front end: a shallow embedding of the
statement parser (src/parser/stmt.rs), its statement-context chain, and the
source-file line table (src/source_file.rs).

Modelling conventions:
  - Rust RefCell-shared cells (the ValOf/Function inference cells and the
    SwitchOn default-case markers) become indices into explicit stores kept
    in a threaded parser state.
  - The token cursor is a list of tokens; the expression subsystem (outside
    src/) delivers each parsed expression as a single atomic token carrying
    the resolved type and side-effect flag, per the spec's interface.
  - Fallible parsing returns an Except value paired with the state after the
    call, so state mutations made before an early return are kept, exactly
    as Rust method calls mutating self behave under the question-mark
    operator.
  - usize arithmetic wraps modulo 2^64.
-/

/-- Width of the usize machine integer: 2 to the power 64. -/
def USIZE : Nat := 18446744073709551616

/-- Source span (src/source_file.rs, struct Location): file id, 1-indexed
line, 0-indexed column, span width. -/
structure Location where
  source_file_id : Nat
  line : Nat
  column : Nat
  width : Nat
deriving DecidableEq, Repr

/-- Source file with its 1-indexed line table (src/source_file.rs, struct
SourceFile); the lines vector is the contents split on newlines. -/
structure SourceFile where
  id : Nat
  path : String
  contents : String
  lines : List String
deriving DecidableEq, Repr

/-- SourceFile::line computes self.lines.get(line_num - 1) where line_num is
a usize; subtraction wraps on underflow (release semantics), modelled modulo
2^64. -/
def SourceFile.line (f : SourceFile) (line_num : Nat) : Option String :=
  f.lines.get? ((line_num + (USIZE - 1)) % USIZE)

/-- Index into the parser's type table (ast/types.rs TypeIndex, outside
src/); only equality of indices matters to the statement parser. -/
abbrev TypeIndex := Nat

/-- Modelled from the spec: the index the missing Parser::get_type returns
for TypeKind::Bool, a fixed distinguished entry of the type table. -/
def bool_type_index : TypeIndex := 0

/-- Token kinds consumed by the statement parser (token.rs, outside src/).
The exprAtom kind is modelled from the spec: the expression subsystem is an
external collaborator, so an expression operand arrives as one atomic token
carrying its resolved type and side-effect flag. -/
inductive TokenKind where
  | lbrace
  | rbrace
  | resultisTk
  | returnTk
  | ifTk
  | unlessTk
  | whileTk
  | untilTk
  | forTk
  | switchOnTk
  | intoTk
  | caseTk
  | defaultTk
  | endCaseTk
  | colonTk
  | eqTk
  | doTk
  | elseTk
  | toTk
  | byTk
  | semicolonTk
  | compoundTk
  | identTk (name : String)
  | exprAtom (typ : Option TypeIndex) (sideeffect : Bool)
  | eofTk
deriving DecidableEq, Repr

/-- Token: a kind together with its source location. -/
structure Token where
  kind : TokenKind
  loc : Location
deriving DecidableEq, Repr

/-- Expression nodes as the statement parser sees them (ast/expr.rs, outside
src/): an atom carries the type and side-effect flag the expression
subsystem resolved; implicitCast mirrors ExprKind::ImplicitCast, whose node
type is stored explicitly by Expr::new. -/
inductive Expr where
  | atom (loc : Location) (typ : Option TypeIndex) (sideeffect : Bool)
  | implicitCast (loc : Location) (typ : Option TypeIndex) (inner : Expr)
deriving DecidableEq, Repr

/-- Resolved type of an expression, as Expr::typ. -/
def Expr.typ : Expr → Option TypeIndex
  | .atom _ t _ => t
  | .implicitCast _ t _ => t

/-- Location of an expression node. -/
def Expr.loc : Expr → Location
  | .atom l _ _ => l
  | .implicitCast l _ _ => l

/-- Modelled from the spec: the has-side-effect predicate supplied by the
expression subsystem; a cast node inherits its operand's flag. -/
def Expr.has_sideeffect : Expr → Bool
  | .atom _ _ se => se
  | .implicitCast _ _ e => e.has_sideeffect

/-- Modelled from the spec: implicit_cast(target_type) wraps the expression
in a cast node coercing it to the target type. -/
def Expr.implicit_cast (e : Expr) (t : TypeIndex) : Expr :=
  .implicitCast e.loc (some t) e

/-- Loop-variable declaration (ast LocalDecl, outside src/): location, name
and declared type, built by parse_for from the initialiser's type. -/
structure LocalDecl where
  loc : Location
  name : String
  typ : Option TypeIndex
deriving DecidableEq, Repr

/-- Statement tree (ast/stmt.rs Stmt and StmtKind flattened): each node is
tagged with the location Stmt::new received. -/
inductive Stmt where
  | blockStmt (loc : Location) (stmts : List Stmt)
  | resultIs (loc : Location) (e : Expr)
  | returnStmt (loc : Location) (e : Expr)
  | ifStmt (loc : Location) (c : Expr) (thenB : Stmt) (elseB : Option Stmt)
  | unlessStmt (loc : Location) (c : Expr) (b : Stmt)
  | whileStmt (loc : Location) (c : Expr) (b : Stmt)
  | untilStmt (loc : Location) (c : Expr) (b : Stmt)
  | forStmt (loc : Location) (decl : LocalDecl) (init : Expr)
      (limit : Option Expr) (step : Option Expr) (b : Stmt)
  | switchOnStmt (loc : Location) (c : Expr) (b : Stmt)
  | caseStmt (loc : Location) (e : Expr)
  | defaultCase (loc : Location)
  | endCase (loc : Location)
  | exprStmt (loc : Location) (e : Expr)

/-- Errors of the statement parser (parser ParseError, outside src/,
modelled from the spec's error taxonomy): InvalidStmt names the offending
keyword and the required enclosing construct, Redefinition carries the
previous definition's location, ExprWithoutSideEffect is the non-fatal
warning, unexpectedToken is the token-expectation failure of expect, and
outOfFuel is a modelling device bounding recursion, never produced when
enough fuel is supplied. -/
inductive ParseError where
  | invalidStmt (stmt : String) (encl : String)
  | redefinition (prev : Location) (what : String)
  | exprWithoutSideEffect
  | unexpectedToken
  | outOfFuel
deriving DecidableEq, Repr

/-- Value paired with a source location (src/source_file.rs, Located). -/
structure Located (α : Type) where
  inner : α
  loc : Location
deriving DecidableEq, Repr

/-- WithLocation::with_location from src/source_file.rs. -/
def ParseError.with_location (e : ParseError) (loc : Location) :
    Located ParseError :=
  ⟨e, loc⟩

/-- Parser state: the token cursor plus the stores backing the
RefCell-shared cells (ValOf/Function inference cells and SwitchOn
default-case markers) and the accumulated warnings. -/
structure ParserState where
  tokens : List Token
  typeCells : List (Option (Option TypeIndex))
  locCells : List (Option Location)
  warnings : List (Located ParseError)
deriving DecidableEq, Repr

/-- Result of one parsing call: the Rust ParseResult together with the state
after the call (kept even on error, as Rust mutates self in place). -/
abbrev PResult (α : Type) := Except (Located ParseError) α × ParserState

/-- Sequencing with the Rust question-mark operator: on error the error
propagates and the state reached so far is kept. -/
def pbind {α β : Type} (r : PResult α) (f : α → ParserState → PResult β) :
    PResult β :=
  match r with
  | (.ok a, s) => f a s
  | (.error e, s) => (.error e, s)

/-- Statement context chain (src/parser/stmt.rs, enum StmtContext): the
RefCell references become store indices; SwitchOn also keeps the switch
condition's type. Function carries no parent, exactly as in the source. -/
inductive StmtContext where
  | valOf (cell : Nat) (outer : StmtContext)
  | block (outer : StmtContext)
  | noBlock (outer : StmtContext)
  | function (cell : Nat)
  | loop (outer : StmtContext)
  | switchOn (default_case : Nat) (cond_typ : Option TypeIndex)
      (outer : StmtContext)
  | empty
deriving DecidableEq, Repr

/-- StmtContext::last_valof_type: the cell of the first ValOf frame walking
outward; Function and Empty stop the walk with no result. -/
def StmtContext.last_valof_type : StmtContext → Option Nat
  | .valOf typ _ => some typ
  | .block outer | .noBlock outer | .loop outer | .switchOn _ _ outer =>
      outer.last_valof_type
  | .function _ => none
  | .empty => none

/-- StmtContext::function_return_type: the cell of the Function frame,
walking through every other frame kind. -/
def StmtContext.function_return_type : StmtContext → Option Nat
  | .valOf _ outer | .block outer | .noBlock outer | .loop outer
  | .switchOn _ _ outer => outer.function_return_type
  | .function return_type => some return_type
  | .empty => none

/-- StmtContext::require_semicolon: Block answers true, Loop and SwitchOn
defer to their parent, every other frame answers false. -/
def StmtContext.require_semicolon : StmtContext → Bool
  | .block _ => true
  | .loop outer | .switchOn _ _ outer => outer.require_semicolon
  | _ => false

/-- StmtContext::in_loop: whether a Loop frame is reachable without
crossing a Function frame. -/
def StmtContext.in_loop : StmtContext → Bool
  | .loop _ => true
  | .valOf _ outer | .block outer | .noBlock outer | .switchOn _ _ outer =>
      outer.in_loop
  | .empty | .function _ => false

/-- StmtContext::in_switchon: the default-case marker cell and condition
type of the first SwitchOn frame, walking through ValOf, Block, NoBlock and
Loop; Empty and Function answer none. -/
def StmtContext.in_switchon : StmtContext → Option (Nat × Option TypeIndex)
  | .switchOn default_case cond_typ _ => some (default_case, cond_typ)
  | .valOf _ outer | .block outer | .noBlock outer | .loop outer =>
      outer.in_switchon
  | .empty | .function _ => none

/-- Placeholder location of the end-of-input token. -/
def eof_loc : Location := ⟨0, 0, 0, 0⟩

/-- Parser::current (parser, outside src/): the token under the cursor; a
drained stream answers an end-of-input token. -/
def Parser.current (s : ParserState) : Token :=
  s.tokens.headD ⟨.eofTk, eof_loc⟩

/-- State after moving the cursor one token forward. -/
def Parser.advanceState (s : ParserState) : ParserState :=
  { s with tokens := s.tokens.tail }

/-- Parser::advance (outside src/): move the cursor forward. -/
def Parser.advance (s : ParserState) : PResult Unit :=
  (.ok (), Parser.advanceState s)

/-- Modelled from the spec: Parser::expect (outside src/) fails with an
unexpected-token diagnostic at the current token when its kind is not in
the given set, otherwise consumes and returns it. -/
def Parser.expect (kinds : List TokenKind) (s : ParserState) : PResult Token :=
  let t := Parser.current s
  if t.kind ∈ kinds then (.ok t, Parser.advanceState s)
  else (.error (ParseError.unexpectedToken.with_location t.loc), s)

/-- Modelled from the spec: Parser::advance_if (outside src/) consumes and
returns the current token only if its kind matches, else answers none
without consuming. -/
def Parser.advance_if (kinds : List TokenKind) (s : ParserState) :
    PResult (Option Token) :=
  let t := Parser.current s
  if t.kind ∈ kinds then (.ok (some t), Parser.advanceState s)
  else (.ok none, s)

/-- Modelled from the spec: Parser::expect_ident (outside src/) expects an
identifier token and returns its name. -/
def Parser.expect_ident (s : ParserState) : PResult String :=
  match Parser.current s with
  | ⟨.identTk name, _⟩ => (.ok name, Parser.advanceState s)
  | t => (.error (ParseError.unexpectedToken.with_location t.loc), s)

/-- Modelled from the spec: Parser::parse_expr (outside src/) yields an
expression tagged with a resolved type and side-effect flag; here it
consumes one atomic expression token delivered by the expression
subsystem. The context argument is not consulted. -/
def Parser.parse_expr (_context : StmtContext) (s : ParserState) :
    PResult Expr :=
  match Parser.current s with
  | ⟨.exprAtom typ se, loc⟩ => (.ok (.atom loc typ se), Parser.advanceState s)
  | t => (.error (ParseError.unexpectedToken.with_location t.loc), s)

/-- Contents of a ValOf/Function inference cell. -/
def ParserState.getTypeCell (s : ParserState) (i : Nat) :
    Option (Option TypeIndex) :=
  s.typeCells.getD i none

/-- Overwrite a ValOf/Function inference cell. -/
def ParserState.setTypeCell (s : ParserState) (i : Nat)
    (v : Option (Option TypeIndex)) : ParserState :=
  { s with typeCells := s.typeCells.set i v }

/-- Contents of a SwitchOn default-case marker cell. -/
def ParserState.getLocCell (s : ParserState) (i : Nat) : Option Location :=
  s.locCells.getD i none

/-- Overwrite a SwitchOn default-case marker cell. -/
def ParserState.setLocCell (s : ParserState) (i : Nat) (v : Option Location) :
    ParserState :=
  { s with locCells := s.locCells.set i v }

/-- Parser::push_warning (outside src/): append a non-fatal warning. -/
def Parser.push_warning (s : ParserState) (w : Located ParseError) :
    ParserState :=
  { s with warnings := s.warnings ++ [w] }

/-- Parser::semicolon_if_required (src/parser/stmt.rs): expect a semicolon
exactly when the context requires a terminator. -/
def Parser.semicolon_if_required (context : StmtContext) (s : ParserState) :
    PResult Unit :=
  if context.require_semicolon then
    pbind (Parser.expect [.semicolonTk] s) fun _ s => (.ok (), s)
  else (.ok (), s)

/-- Parser::parse_resultis (src/parser/stmt.rs): expect the resultis
keyword, parse the operand, require a reachable ValOf cell, unify the
operand's type against the cell (first occurrence fixes it, a later
mismatch is wrapped in an implicit cast typed by Expr::new), then consume
the terminator if required. -/
def Parser.parse_resultis (context : StmtContext) (s : ParserState) :
    PResult Stmt :=
  pbind (Parser.expect [.resultisTk] s) fun tok s =>
  let loc := tok.loc
  pbind (Parser.parse_expr context s) fun expr s =>
  match context.last_valof_type with
  | none => (.error ((ParseError.invalidStmt ("resultis") ("valof")).with_location loc), s)
  | some valof_typ =>
    let res : Expr × ParserState :=
      match s.getTypeCell valof_typ with
      | some vt =>
        if vt ≠ expr.typ then (Expr.implicitCast loc vt expr, s) else (expr, s)
      | none => (expr, s.setTypeCell valof_typ (some expr.typ))
    pbind (Parser.semicolon_if_required context res.2) fun _ s =>
    (.ok (.resultIs loc res.1), s)

/-- Parser::parse_return (src/parser/stmt.rs): symmetric to parse_resultis
against the Function cell. -/
def Parser.parse_return (context : StmtContext) (s : ParserState) :
    PResult Stmt :=
  pbind (Parser.expect [.returnTk] s) fun tok s =>
  let loc := tok.loc
  pbind (Parser.parse_expr context s) fun expr s =>
  match context.function_return_type with
  | none => (.error ((ParseError.invalidStmt ("return") ("function")).with_location loc), s)
  | some return_type =>
    let res : Expr × ParserState :=
      match s.getTypeCell return_type with
      | some rt =>
        if rt ≠ expr.typ then (Expr.implicitCast loc rt expr, s) else (expr, s)
      | none => (expr, s.setTypeCell return_type (some expr.typ))
    pbind (Parser.semicolon_if_required context res.2) fun _ s =>
    (.ok (.returnStmt loc res.1), s)

/-- Parser::parse_case (src/parser/stmt.rs): expect case, the label
expression and a colon; with a reachable SwitchOn whose condition type is
known and differs from the label's, wrap the label in an implicit cast;
without a reachable SwitchOn fail with InvalidStmt. -/
def Parser.parse_case (context : StmtContext) (s : ParserState) :
    PResult Stmt :=
  pbind (Parser.expect [.caseTk] s) fun tok s =>
  let loc := tok.loc
  pbind (Parser.parse_expr context s) fun expr s =>
  pbind (Parser.expect [.colonTk] s) fun _ s =>
  match context.in_switchon with
  | some (_, cond_typ) =>
    let expr :=
      match cond_typ with
      | some ct => if some ct ≠ expr.typ then expr.implicit_cast ct else expr
      | none => expr
    (.ok (.caseStmt loc expr), s)
  | none =>
    (.error ((ParseError.invalidStmt ("case") ("switchon")).with_location loc), s)

/-- Parser::parse_default_case (src/parser/stmt.rs): expect default and a
colon; with a reachable SwitchOn, a still-empty marker cell records this
location and the statement succeeds, while an occupied cell fails with a
Redefinition diagnostic carrying the first default's location and leaves
the cell untouched; without a reachable SwitchOn fail with InvalidStmt. -/
def Parser.parse_default_case (context : StmtContext) (s : ParserState) :
    PResult Stmt :=
  pbind (Parser.expect [.defaultTk] s) fun tok s =>
  let loc := tok.loc
  pbind (Parser.expect [.colonTk] s) fun _ s =>
  match context.in_switchon with
  | some (default_case, _) =>
    match s.getLocCell default_case with
    | some prev =>
      (.error ((ParseError.redefinition prev ("default case")).with_location loc), s)
    | none => (.ok (.defaultCase loc), s.setLocCell default_case (some loc))
  | none =>
    (.error ((ParseError.invalidStmt ("default") ("switchon")).with_location loc), s)

/-- Parser::parse_endcase (src/parser/stmt.rs): expect endcase, consume the
terminator if required, then require a reachable SwitchOn, else fail with
InvalidStmt. -/
def Parser.parse_endcase (context : StmtContext) (s : ParserState) :
    PResult Stmt :=
  pbind (Parser.expect [.endCaseTk] s) fun tok s =>
  let loc := tok.loc
  pbind (Parser.semicolon_if_required context s) fun _ s =>
  match context.in_switchon with
  | some _ => (.ok (.endCase loc), s)
  | none =>
    (.error ((ParseError.invalidStmt ("endcase") ("switchon")).with_location loc), s)

/-- Parser::parse_expr_stmt (src/parser/stmt.rs): parse an expression; when
it has no observable side effect push one warning (the statement still
succeeds); then consume the terminator if required. -/
def Parser.parse_expr_stmt (context : StmtContext) (s : ParserState) :
    PResult Stmt :=
  let loc := (Parser.current s).loc
  pbind (Parser.parse_expr context s) fun expr s =>
  let s :=
    if expr.has_sideeffect then s
    else Parser.push_warning s (ParseError.exprWithoutSideEffect.with_location loc)
  pbind (Parser.semicolon_if_required context s) fun _ s =>
  (.ok (.exprStmt loc expr), s)

/-- Parser::parse_if (src/parser/stmt.rs), parameterised by the
statement-parser continuation ps used for the branches: coerce the
condition to bool when needed, skip an optional do, parse the branches in
the same context. -/
def Parser.parse_if (ps : StmtContext → ParserState → PResult Stmt)
    (context : StmtContext) (s : ParserState) : PResult Stmt :=
  pbind (Parser.expect [.ifTk] s) fun tok s =>
  let loc := tok.loc
  pbind (Parser.parse_expr context s) fun condition s =>
  let condition :=
    if condition.typ ≠ some bool_type_index then
      condition.implicit_cast bool_type_index
    else condition
  pbind (Parser.advance_if [.doTk] s) fun _ s =>
  pbind (ps context s) fun if_branch s =>
  pbind (Parser.advance_if [.elseTk] s) fun elseTok s =>
  match elseTok with
  | some _ =>
    pbind (ps context s) fun else_branch s =>
    (.ok (.ifStmt loc condition if_branch (some else_branch)), s)
  | none => (.ok (.ifStmt loc condition if_branch none), s)

/-- Parser::parse_unless (src/parser/stmt.rs): like parse_if with a single
branch. -/
def Parser.parse_unless (ps : StmtContext → ParserState → PResult Stmt)
    (context : StmtContext) (s : ParserState) : PResult Stmt :=
  pbind (Parser.expect [.unlessTk] s) fun tok s =>
  let loc := tok.loc
  pbind (Parser.parse_expr context s) fun condition s =>
  let condition :=
    if condition.typ ≠ some bool_type_index then
      condition.implicit_cast bool_type_index
    else condition
  pbind (Parser.advance_if [.doTk] s) fun _ s =>
  pbind (ps context s) fun branch s =>
  (.ok (.unlessStmt loc condition branch), s)

/-- Parser::parse_while (src/parser/stmt.rs): the expected-token set is
written [While, While] exactly as in the source (line 222), so only a
while token ever satisfies it; the condition is coerced to bool when
needed, the body parses under a fresh Loop frame, and the negate flag
selects the Until node over the While node. -/
def Parser.parse_while (ps : StmtContext → ParserState → PResult Stmt)
    (context : StmtContext) (negate : Bool) (s : ParserState) : PResult Stmt :=
  pbind (Parser.expect [.whileTk, .whileTk] s) fun tok s =>
  let loc := tok.loc
  pbind (Parser.parse_expr context s) fun condition s =>
  let condition :=
    if condition.typ ≠ some bool_type_index then
      condition.implicit_cast bool_type_index
    else condition
  pbind (Parser.advance_if [.doTk] s) fun _ s =>
  pbind (ps (.loop context) s) fun body s =>
  (.ok (if negate then .untilStmt loc condition body
        else .whileStmt loc condition body), s)

/-- Parser::parse_for (src/parser/stmt.rs): declare the loop variable with
the initialiser's type; each present to/by expression whose type differs
from the initialiser's known type is wrapped in one implicit cast to it;
the body parses under a fresh Loop frame. -/
def Parser.parse_for (ps : StmtContext → ParserState → PResult Stmt)
    (context : StmtContext) (s : ParserState) : PResult Stmt :=
  pbind (Parser.expect [.forTk] s) fun tok s =>
  let loc := tok.loc
  let iter_loc := (Parser.current s).loc
  pbind (Parser.expect_ident s) fun iter_ident s =>
  pbind (Parser.expect [.eqTk] s) fun _ s =>
  pbind (Parser.parse_expr context s) fun init s =>
  pbind (Parser.advance_if [.toTk] s) fun toTok s =>
  pbind
    (match toTok with
     | some _ =>
       pbind (Parser.parse_expr context s) fun e s =>
       let e :=
         match init.typ with
         | some typ => if init.typ ≠ e.typ then e.implicit_cast typ else e
         | none => e
       (.ok (some e), s)
     | none => (.ok none, s)) fun limit s =>
  pbind (Parser.advance_if [.byTk] s) fun byTok s =>
  pbind
    (match byTok with
     | some _ =>
       pbind (Parser.parse_expr context s) fun e s =>
       let e :=
         match init.typ with
         | some typ => if init.typ ≠ e.typ then e.implicit_cast typ else e
         | none => e
       (.ok (some e), s)
     | none => (.ok none, s)) fun step s =>
  pbind (Parser.advance_if [.doTk] s) fun _ s =>
  pbind (ps (.loop context) s) fun body s =>
  (.ok (.forStmt loc ⟨iter_loc, iter_ident, init.typ⟩ init limit step body), s)

/-- Parser::parse_switchon (src/parser/stmt.rs): parse the condition,
expect into, allocate a fresh empty default-case marker cell and parse the
body under a SwitchOn frame holding it and the condition's type. -/
def Parser.parse_switchon (ps : StmtContext → ParserState → PResult Stmt)
    (context : StmtContext) (s : ParserState) : PResult Stmt :=
  pbind (Parser.expect [.switchOnTk] s) fun tok s =>
  let loc := tok.loc
  pbind (Parser.parse_expr context s) fun condition s =>
  pbind (Parser.expect [.intoTk] s) fun _ s =>
  let default_case := s.locCells.length
  let s := { s with locCells := s.locCells ++ [none] }
  pbind (ps (.switchOn default_case condition.typ context) s) fun body s =>
  (.ok (.switchOnStmt loc condition body), s)

/-- Loop of Parser::parse_block: parse statements under a Block frame until
the closing brace; the fuel bounds the iteration count in this model. -/
def Parser.parse_block_loop (ps : StmtContext → ParserState → PResult Stmt) :
    Nat → StmtContext → ParserState → List Stmt → PResult (List Stmt)
  | fuel, context, s, acc =>
    if (Parser.current s).kind ≠ TokenKind.rbrace then
      match fuel with
      | 0 => (.error (ParseError.outOfFuel.with_location (Parser.current s).loc), s)
      | fuel + 1 =>
        pbind (ps (.block context) s) fun st s =>
        Parser.parse_block_loop ps fuel context s (acc ++ [st])
    else (.ok acc, s)

/-- Parser::parse_block (src/parser/stmt.rs): expect the opening brace,
parse statements under a fresh Block frame until the closing brace, consume
it, and wrap the sequence in one Block node. -/
def Parser.parse_block (ps : StmtContext → ParserState → PResult Stmt)
    (fuel : Nat) (context : StmtContext) (s : ParserState) : PResult Stmt :=
  let loc := (Parser.current s).loc
  pbind (Parser.expect [.lbrace] s) fun _ s =>
  pbind (Parser.parse_block_loop ps fuel context s []) fun stmts s =>
  pbind (Parser.advance s) fun _ s =>
  (.ok (.blockStmt loc stmts), s)

/-- Loop of Parser::parse_compound: while the current token is the compound
separator, consume it and parse another statement in the given (NoBlock)
context. -/
def Parser.parse_compound_loop (ps : StmtContext → ParserState → PResult Stmt) :
    Nat → StmtContext → ParserState → List Stmt → PResult (List Stmt)
  | fuel, context, s, acc =>
    if (Parser.current s).kind = TokenKind.compoundTk then
      match fuel with
      | 0 => (.error (ParseError.outOfFuel.with_location (Parser.current s).loc), s)
      | fuel + 1 =>
        pbind (Parser.advance s) fun _ s =>
        pbind (ps context s) fun st s =>
        Parser.parse_compound_loop ps fuel context s (acc ++ [st])
    else (.ok acc, s)

/-- Parser::parse_compound (src/parser/stmt.rs): starting from the already
parsed left statement, chain further statements under one fresh NoBlock
frame and wrap them all in one Block node located at the first separator. -/
def Parser.parse_compound (ps : StmtContext → ParserState → PResult Stmt)
    (fuel : Nat) (context : StmtContext) (left : Stmt) (s : ParserState) :
    PResult Stmt :=
  let loc := (Parser.current s).loc
  pbind (Parser.parse_compound_loop ps fuel (.noBlock context) s [left])
    fun stmts s =>
  (.ok (.blockStmt loc stmts), s)

/-- Parser::parse_stmt (src/parser/stmt.rs): dispatch on the current token
kind, then fold a following compound chain; the fuel bounds recursion depth
in this model and is threaded to every recursive call. -/
def Parser.parse_stmt : Nat → StmtContext → ParserState → PResult Stmt
  | 0, _, s =>
    (.error (ParseError.outOfFuel.with_location (Parser.current s).loc), s)
  | fuel + 1, context, s =>
    let r :=
      match (Parser.current s).kind with
      | .lbrace => Parser.parse_block (Parser.parse_stmt fuel) fuel context s
      | .resultisTk => Parser.parse_resultis context s
      | .returnTk => Parser.parse_return context s
      | .ifTk => Parser.parse_if (Parser.parse_stmt fuel) context s
      | .unlessTk => Parser.parse_unless (Parser.parse_stmt fuel) context s
      | .whileTk => Parser.parse_while (Parser.parse_stmt fuel) context false s
      | .untilTk => Parser.parse_while (Parser.parse_stmt fuel) context true s
      | .forTk => Parser.parse_for (Parser.parse_stmt fuel) context s
      | .switchOnTk => Parser.parse_switchon (Parser.parse_stmt fuel) context s
      | .caseTk => Parser.parse_case context s
      | .defaultTk => Parser.parse_default_case context s
      | .endCaseTk => Parser.parse_endcase context s
      | _ => Parser.parse_expr_stmt context s
    pbind r fun stmt s =>
    match (Parser.current s).kind with
    | .compoundTk =>
      Parser.parse_compound (Parser.parse_stmt fuel) fuel context stmt s
    | _ => (.ok stmt, s)

/-- Frame tags of the context chain listed outward, used to state the
spec's walk-outward lookup rules over a plain list. -/
inductive Frame where
  | valOfF (cell : Nat)
  | blockF
  | noBlockF
  | functionF (cell : Nat)
  | loopF
  | switchOnF (default_case : Nat) (cond_typ : Option TypeIndex)
deriving DecidableEq, Repr

/-- The chain of frames from the current frame outward; Function ends the
chain since it carries no parent. -/
def StmtContext.chain : StmtContext → List Frame
  | .valOf c outer => .valOfF c :: outer.chain
  | .block outer => .blockF :: outer.chain
  | .noBlock outer => .noBlockF :: outer.chain
  | .function c => [.functionF c]
  | .loop outer => .loopF :: outer.chain
  | .switchOn d t outer => .switchOnF d t :: outer.chain
  | .empty => []

/-- Stated from the spec's words: the resultis-target lookup returns the
cell of the first ValOf frame found walking outward and is absent if a
Function frame is reached first without crossing a ValOf. -/
def valof_lookup_spec : List Frame → Option Nat
  | [] => none
  | .valOfF c :: _ => some c
  | .functionF _ :: _ => none
  | _ :: rest => valof_lookup_spec rest

/-- Stated from the spec's words: the return-target lookup returns the cell
of the first Function frame found, passing through every other frame. -/
def return_lookup_spec : List Frame → Option Nat
  | [] => none
  | .functionF c :: _ => some c
  | _ :: rest => return_lookup_spec rest

/-- Nearest ancestor frame after looking through Loop and SwitchOn frames,
stated from the spec's terminator rule. -/
def StmtContext.first_non_transparent : StmtContext → StmtContext
  | .loop outer => outer.first_non_transparent
  | .switchOn _ _ outer => outer.first_non_transparent
  | ctx => ctx

/-- Whether a context is a Block frame. -/
def StmtContext.isBlockFrame : StmtContext → Bool
  | .block _ => true
  | _ => false

/-- Whether walking the chain outward reaches a Function frame before any
SwitchOn frame. -/
def StmtContext.reaches_function_first : StmtContext → Bool
  | .function _ => true
  | .switchOn _ _ _ => false
  | .valOf _ outer | .block outer | .noBlock outer | .loop outer =>
      outer.reaches_function_first
  | .empty => false

/-- Concrete locations used by the closed evaluation theorems. -/
def locA : Location := ⟨0, 1, 0, 5⟩

/-- Second concrete location. -/
def locB : Location := ⟨0, 1, 6, 1⟩

/-- Third concrete location. -/
def locC : Location := ⟨0, 1, 8, 2⟩

/-- Fourth concrete location. -/
def locD : Location := ⟨0, 1, 11, 1⟩

/-- Fifth concrete location. -/
def locE : Location := ⟨0, 2, 0, 2⟩

/-- Sixth concrete location. -/
def locF : Location := ⟨0, 2, 3, 2⟩

/-- Seventh concrete location. -/
def locG : Location := ⟨0, 2, 6, 2⟩

/-- Eighth concrete location. -/
def locH : Location := ⟨0, 2, 9, 1⟩

/-- Ninth concrete location. -/
def locI : Location := ⟨0, 2, 11, 2⟩

/-- Concrete parser state holding a default label, with one empty marker
cell. -/
def c1_state : ParserState :=
  ⟨[⟨.defaultTk, locA⟩, ⟨.colonTk, locB⟩], [], [none], []⟩

/-- Concrete state holding a top-level resultis statement. -/
def c2_state_r : ParserState :=
  ⟨[⟨.resultisTk, locA⟩, ⟨.exprAtom (some 1) true, locB⟩], [], [], []⟩

/-- Concrete state holding a top-level case label. -/
def c2_state_c : ParserState :=
  ⟨[⟨.caseTk, locA⟩, ⟨.exprAtom (some 1) true, locB⟩, ⟨.colonTk, locC⟩],
   [], [], []⟩

/-- Concrete state holding a top-level default label. -/
def c2_state_d : ParserState :=
  ⟨[⟨.defaultTk, locA⟩, ⟨.colonTk, locB⟩], [], [], []⟩

/-- Concrete state holding a top-level endcase statement. -/
def c2_state_e : ParserState :=
  ⟨[⟨.endCaseTk, locA⟩, ⟨.semicolonTk, locB⟩], [], [], []⟩

/-- Concrete context for the resultis transitions: a Block frame, which
requires a terminator, over a ValOf frame over a Function frame. -/
def c4_context : StmtContext := .block (.valOf 0 (.function 1))

/-- Concrete context for the return transitions: a Block frame directly
over a Function frame, with no ValOf anywhere in the chain. -/
def c4_context_f : StmtContext := .block (.function 1)

/-- Concrete state with both inference cells empty, holding a terminated
resultis. -/
def c4_state_r : ParserState :=
  ⟨[⟨.resultisTk, locA⟩, ⟨.exprAtom (some 1) true, locB⟩,
    ⟨.semicolonTk, locC⟩],
   [none, none], [], []⟩

/-- Concrete state whose ValOf cell is already fixed to another type. -/
def c4_state_r2 : ParserState :=
  ⟨[⟨.resultisTk, locA⟩, ⟨.exprAtom (some 1) true, locB⟩,
    ⟨.semicolonTk, locC⟩],
   [some (some 2), none], [], []⟩

/-- Concrete state with both inference cells empty, holding a terminated
return. -/
def c4_state_f : ParserState :=
  ⟨[⟨.returnTk, locA⟩, ⟨.exprAtom (some 1) true, locB⟩,
    ⟨.semicolonTk, locC⟩],
   [none, none], [], []⟩

/-- Concrete state holding a full for header with to and by clauses. -/
def c7_state : ParserState :=
  ⟨[⟨.forTk, locA⟩, ⟨.identTk ("i"), locB⟩, ⟨.eqTk, locC⟩,
    ⟨.exprAtom (some 1) true, locD⟩, ⟨.toTk, locE⟩,
    ⟨.exprAtom (some 2) true, locF⟩, ⟨.byTk, locG⟩,
    ⟨.exprAtom (some 1) false, locH⟩, ⟨.doTk, locI⟩], [], [], []⟩

/-- Constant statement parser used as the body continuation in the for
witness. -/
def c7_ps : StmtContext → ParserState → PResult Stmt :=
  fun _ st => (.ok (.endCase locD), st)

/-- Concrete state holding a side-effect-free expression statement inside
a Block context. -/
def c8_state : ParserState :=
  ⟨[⟨.exprAtom (some 1) false, locA⟩, ⟨.semicolonTk, locB⟩], [], [], []⟩

/-- Concrete two-line source file. -/
def c9_file : SourceFile := ⟨0, ("demo.b"), ("s1\ns2"), [("s1"), ("s2")]⟩

/-- Concrete chain rooted at a Function frame. -/
def c10_context : StmtContext := .block (.function 0)

/-- Concrete state holding a case label for the function-rooted chain. -/
def c10_state_c : ParserState :=
  ⟨[⟨.caseTk, locA⟩, ⟨.exprAtom (some 1) true, locB⟩, ⟨.colonTk, locC⟩],
   [], [], []⟩

/-- Concrete state holding an endcase for the function-rooted chain. -/
def c10_state_e : ParserState :=
  ⟨[⟨.endCaseTk, locA⟩, ⟨.semicolonTk, locB⟩], [], [], []⟩

@[simp]
theorem pbind_ok {α β : Type} (a : α) (s : ParserState)
    (f : α → ParserState → PResult β) : pbind (.ok a, s) f = f a s := rfl

@[simp]
theorem pbind_error {α β : Type} (e : Located ParseError) (s : ParserState)
    (f : α → ParserState → PResult β) : pbind (.error e, s) f = (.error e, s) :=
  rfl

/-- The state component of sequencing a result with a continuation that
returns its state unchanged is the result's own state. -/
theorem pbind_const_ok_state {α β : Type} (r : PResult α) (x : β) :
    (pbind r (fun _ s => (.ok x, s))).2 = r.2 := by
  rcases r with ⟨e, s⟩
  cases e <;> rfl

/-- semicolon_if_required only moves the token cursor; the inference-cell
store is untouched whether the terminator was required, consumed or
missing. -/
theorem semicolon_if_required_typeCells (context : StmtContext)
    (s : ParserState) :
    ((Parser.semicolon_if_required context s).2).typeCells = s.typeCells := by
  unfold Parser.semicolon_if_required Parser.expect
  split
  · by_cases h : (Parser.current s).kind = TokenKind.semicolonTk <;>
      simp [h, pbind, Parser.advanceState]
  · rfl

/-- Claim C5: the terminator-required query answers true exactly when the
nearest ancestor frame after looking through Loop and SwitchOn frames is a
Block frame (NoBlock is not looked through); consequently a statement
parsed directly under a Block frame requires a terminator while one parsed
under a NoBlock frame (a compound chain) never does. -/
theorem require_semicolon_iff_nearest_block :
    (∀ context : StmtContext,
      context.require_semicolon = context.first_non_transparent.isBlockFrame)
    ∧ (∀ context : StmtContext,
      (StmtContext.block context).require_semicolon = true)
    ∧ (∀ context : StmtContext,
      (StmtContext.noBlock context).require_semicolon = false) := by
  refine ⟨?_, fun _ => rfl, fun _ => rfl⟩
  intro context
  induction context <;>
    simp [StmtContext.require_semicolon, StmtContext.first_non_transparent,
      StmtContext.isBlockFrame, *]

/-- Claim C6: the resultis-target lookup walks outward and returns the cell
of the first ValOf frame, absent when a Function frame is reached first
without crossing a ValOf; the return-target lookup returns the cell of the
first Function frame, passing through every ValOf, Block, NoBlock, Loop and
SwitchOn frame. -/
theorem target_cell_lookup_spec :
    ∀ context : StmtContext,
      context.last_valof_type = valof_lookup_spec context.chain
      ∧ context.function_return_type = return_lookup_spec context.chain := by
  intro context
  induction context <;>
    simp [StmtContext.last_valof_type, StmtContext.function_return_type,
      StmtContext.chain, valof_lookup_spec, return_lookup_spec, *]

/-- Claim C1: with a reachable SwitchOn frame, a default label seen while
the switch's default-marker cell is still empty records its own location
there and succeeds, and a default label seen while the cell already holds
the first default's location fails with a Redefinition diagnostic carrying
that first location and leaves the cell holding it. -/
theorem parse_default_case_unique_default
    (context : StmtContext) (cellId : Nat) (ct : Option TypeIndex)
    (s : ParserState) (l0 l1 : Location) (rest : List Token)
    (hsw : context.in_switchon = some (cellId, ct))
    (hcell : cellId < s.locCells.length)
    (htok : s.tokens = ⟨.defaultTk, l0⟩ :: ⟨.colonTk, l1⟩ :: rest) :
    (s.getLocCell cellId = none →
      Parser.parse_default_case context s =
        (.ok (.defaultCase l0),
         { s with tokens := rest,
                  locCells := s.locCells.set cellId (some l0) })
      ∧ (Parser.parse_default_case context s).2.getLocCell cellId = some l0)
    ∧ (∀ prev, s.getLocCell cellId = some prev →
      Parser.parse_default_case context s =
        (.error ((ParseError.redefinition prev ("default case")).with_location l0),
         { s with tokens := rest })
      ∧ (Parser.parse_default_case context s).2.getLocCell cellId = some prev) := by
  have hrun : Parser.parse_default_case context s =
      (match s.getLocCell cellId with
       | some prev =>
         (.error ((ParseError.redefinition prev ("default case")).with_location l0),
          { s with tokens := rest })
       | none =>
         (.ok (.defaultCase l0),
          { s with tokens := rest,
                   locCells := s.locCells.set cellId (some l0) })) := by
    simp [Parser.parse_default_case, Parser.expect, Parser.current,
      Parser.advanceState, htok, hsw, ParseError.with_location,
      ParserState.getLocCell, ParserState.setLocCell]
  constructor
  · intro hnone
    rw [hrun, hnone]
    refine ⟨rfl, ?_⟩
    show (s.locCells.set cellId (some l0)).getD cellId none = some l0
    rw [List.getD_eq_getElem _ _ (by simpa using hcell)]
    simp [List.getElem_set_self]
  · intro prev hprev
    rw [hrun, hprev]
    exact ⟨rfl, hprev⟩

/-- Claim C2: in a context chain with no reachable ValOf (for resultis) or
SwitchOn (for case, default, endcase), each of the four statements fails
with an InvalidStmt diagnostic naming the required enclosing construct,
located at the keyword's token, and no statement node is produced. -/
theorem invalid_stmt_outside_required_construct
    (context : StmtContext)
    (hval : context.last_valof_type = none)
    (hsw : context.in_switchon = none) :
    (∀ (s : ParserState) (l0 l1 : Location) (t : Option TypeIndex) (se : Bool)
        (rest : List Token),
      s.tokens = ⟨.resultisTk, l0⟩ :: ⟨.exprAtom t se, l1⟩ :: rest →
      (Parser.parse_resultis context s).1 =
        .error ((ParseError.invalidStmt ("resultis") ("valof")).with_location l0))
    ∧ (∀ (s : ParserState) (l0 l1 l2 : Location) (t : Option TypeIndex)
        (se : Bool) (rest : List Token),
      s.tokens = ⟨.caseTk, l0⟩ :: ⟨.exprAtom t se, l1⟩ :: ⟨.colonTk, l2⟩ :: rest →
      (Parser.parse_case context s).1 =
        .error ((ParseError.invalidStmt ("case") ("switchon")).with_location l0))
    ∧ (∀ (s : ParserState) (l0 l1 : Location) (rest : List Token),
      s.tokens = ⟨.defaultTk, l0⟩ :: ⟨.colonTk, l1⟩ :: rest →
      (Parser.parse_default_case context s).1 =
        .error ((ParseError.invalidStmt ("default") ("switchon")).with_location l0))
    ∧ (∀ (s : ParserState) (l0 l1 : Location) (rest : List Token),
      s.tokens = ⟨.endCaseTk, l0⟩ :: ⟨.semicolonTk, l1⟩ :: rest →
      (Parser.parse_endcase context s).1 =
        .error ((ParseError.invalidStmt ("endcase") ("switchon")).with_location l0)) := by
  refine ⟨?_, ?_, ?_, ?_⟩
  · intro s l0 l1 t se rest htok
    simp [Parser.parse_resultis, Parser.expect, Parser.parse_expr,
      Parser.current, Parser.advanceState, htok, hval]
  · intro s l0 l1 l2 t se rest htok
    simp [Parser.parse_case, Parser.expect, Parser.parse_expr,
      Parser.current, Parser.advanceState, htok, hsw]
  · intro s l0 l1 rest htok
    simp [Parser.parse_default_case, Parser.expect, Parser.current,
      Parser.advanceState, htok, hsw]
  · intro s l0 l1 rest htok
    cases hrs : context.require_semicolon <;>
      simp [Parser.parse_endcase, Parser.expect, Parser.current,
        Parser.advanceState, Parser.semicolon_if_required, htok, hsw, hrs]

/-- Reading a valid inference cell through the optional indexing operator. -/
theorem getElem?_typeCells (s : ParserState) (i : Nat)
    (h : i < s.typeCells.length) :
    s.typeCells[i]? = some (s.getTypeCell i) := by
  have h1 : s.getTypeCell i = s.typeCells[i] := List.getD_eq_getElem _ _ h
  rw [h1, List.getElem?_eq_getElem h]

/-- Claim C4: for every context chain in which the respective cell is
reachable, the ValOf and Function inference cells transition monotonically
under parse_resultis and parse_return: an empty cell is fixed to the first
operand's type, an already-fixed cell is never changed by later
occurrences, and a later operand whose type differs from the fixed one is
wrapped in an implicit cast to it; the terminator is then consumed exactly
as semicolon_if_required prescribes for the context, after the cell
update. -/
theorem valof_function_cell_monotone :
    (∀ (context : StmtContext) (i : Nat) (s : ParserState) (l0 l1 : Location)
        (t : Option TypeIndex) (se : Bool) (rest : List Token),
      context.last_valof_type = some i →
      s.tokens = ⟨.resultisTk, l0⟩ :: ⟨.exprAtom t se, l1⟩ :: rest →
      i < s.typeCells.length →
      (s.getTypeCell i = none →
        Parser.parse_resultis context s =
          pbind (Parser.semicolon_if_required context
              { s with tokens := rest,
                       typeCells := s.typeCells.set i (some t) })
            (fun _ s2 => (.ok (.resultIs l0 (.atom l1 t se)), s2))
        ∧ (Parser.parse_resultis context s).2.getTypeCell i = some t)
      ∧ (∀ ft, s.getTypeCell i = some ft →
        Parser.parse_resultis context s =
          pbind (Parser.semicolon_if_required context { s with tokens := rest })
            (fun _ s2 => (.ok (.resultIs l0
              (if ft ≠ t then Expr.implicitCast l0 ft (.atom l1 t se)
               else .atom l1 t se)), s2))
        ∧ (Parser.parse_resultis context s).2.typeCells = s.typeCells
        ∧ (Parser.parse_resultis context s).2.getTypeCell i = some ft))
    ∧ (∀ (context : StmtContext) (j : Nat) (s : ParserState) (l0 l1 : Location)
        (t : Option TypeIndex) (se : Bool) (rest : List Token),
      context.function_return_type = some j →
      s.tokens = ⟨.returnTk, l0⟩ :: ⟨.exprAtom t se, l1⟩ :: rest →
      j < s.typeCells.length →
      (s.getTypeCell j = none →
        Parser.parse_return context s =
          pbind (Parser.semicolon_if_required context
              { s with tokens := rest,
                       typeCells := s.typeCells.set j (some t) })
            (fun _ s2 => (.ok (.returnStmt l0 (.atom l1 t se)), s2))
        ∧ (Parser.parse_return context s).2.getTypeCell j = some t)
      ∧ (∀ ft, s.getTypeCell j = some ft →
        Parser.parse_return context s =
          pbind (Parser.semicolon_if_required context { s with tokens := rest })
            (fun _ s2 => (.ok (.returnStmt l0
              (if ft ≠ t then Expr.implicitCast l0 ft (.atom l1 t se)
               else .atom l1 t se)), s2))
        ∧ (Parser.parse_return context s).2.typeCells = s.typeCells
        ∧ (Parser.parse_return context s).2.getTypeCell j = some ft)) := by
  constructor
  · intro context i s l0 l1 t se rest hv htok hlen
    constructor
    · intro hcell
      have hgl : s.typeCells[i]? = some none := by
        rw [getElem?_typeCells s i hlen, hcell]
      have hrun : Parser.parse_resultis context s =
          pbind (Parser.semicolon_if_required context
              { s with tokens := rest,
                       typeCells := s.typeCells.set i (some t) })
            (fun _ s2 => (.ok (.resultIs l0 (.atom l1 t se)), s2)) := by
        simp [Parser.parse_resultis, Parser.expect, Parser.parse_expr,
          Parser.current, Parser.advanceState, htok, hv, hgl,
          ParserState.setTypeCell, ParserState.getTypeCell, Expr.typ]
      refine ⟨hrun, ?_⟩
      rw [hrun, pbind_const_ok_state]
      simp only [ParserState.getTypeCell, semicolon_if_required_typeCells]
      show (s.typeCells.set i (some t)).getD i none = some t
      rw [List.getD_eq_getElem _ _ (by simpa using hlen)]
      simp [List.getElem_set_self]
    · intro ft hcell
      have hgl : s.typeCells[i]? = some (some ft) := by
        rw [getElem?_typeCells s i hlen, hcell]
      have hrun : Parser.parse_resultis context s =
          pbind (Parser.semicolon_if_required context { s with tokens := rest })
            (fun _ s2 => (.ok (.resultIs l0
              (if ft ≠ t then Expr.implicitCast l0 ft (.atom l1 t se)
               else .atom l1 t se)), s2)) := by
        simp [Parser.parse_resultis, Parser.expect, Parser.parse_expr,
          Parser.current, Parser.advanceState, htok, hv, hgl,
          ParserState.getTypeCell, Expr.typ]
        by_cases hft : ft = t <;> simp [hft]
      refine ⟨hrun, ?_, ?_⟩
      · rw [hrun, pbind_const_ok_state, semicolon_if_required_typeCells]
      · rw [hrun, pbind_const_ok_state]
        simp only [ParserState.getTypeCell, semicolon_if_required_typeCells]
        exact hcell
  · intro context j s l0 l1 t se rest hf htok hlen
    constructor
    · intro hcell
      have hgl : s.typeCells[j]? = some none := by
        rw [getElem?_typeCells s j hlen, hcell]
      have hrun : Parser.parse_return context s =
          pbind (Parser.semicolon_if_required context
              { s with tokens := rest,
                       typeCells := s.typeCells.set j (some t) })
            (fun _ s2 => (.ok (.returnStmt l0 (.atom l1 t se)), s2)) := by
        simp [Parser.parse_return, Parser.expect, Parser.parse_expr,
          Parser.current, Parser.advanceState, htok, hf, hgl,
          ParserState.setTypeCell, ParserState.getTypeCell, Expr.typ]
      refine ⟨hrun, ?_⟩
      rw [hrun, pbind_const_ok_state]
      simp only [ParserState.getTypeCell, semicolon_if_required_typeCells]
      show (s.typeCells.set j (some t)).getD j none = some t
      rw [List.getD_eq_getElem _ _ (by simpa using hlen)]
      simp [List.getElem_set_self]
    · intro ft hcell
      have hgl : s.typeCells[j]? = some (some ft) := by
        rw [getElem?_typeCells s j hlen, hcell]
      have hrun : Parser.parse_return context s =
          pbind (Parser.semicolon_if_required context { s with tokens := rest })
            (fun _ s2 => (.ok (.returnStmt l0
              (if ft ≠ t then Expr.implicitCast l0 ft (.atom l1 t se)
               else .atom l1 t se)), s2)) := by
        simp [Parser.parse_return, Parser.expect, Parser.parse_expr,
          Parser.current, Parser.advanceState, htok, hf, hgl,
          ParserState.getTypeCell, Expr.typ]
        by_cases hft : ft = t <;> simp [hft]
      refine ⟨hrun, ?_, ?_⟩
      · rw [hrun, pbind_const_ok_state, semicolon_if_required_typeCells]
      · rw [hrun, pbind_const_ok_state]
        simp only [ParserState.getTypeCell, semicolon_if_required_typeCells]
        exact hcell

/-- Claim C8: an expression statement whose expression has no observable
side effect pushes exactly one warning yet still succeeds as a normal
expression statement, consuming the terminator exactly when the context
requires one; an expression with a side effect produces no warning. -/
theorem parse_expr_stmt_warning
    (context : StmtContext) (s : ParserState) (l0 l1 : Location)
    (t : Option TypeIndex) (se : Bool) (rest : List Token)
    (htok : s.tokens = ⟨.exprAtom t se, l0⟩ :: ⟨.semicolonTk, l1⟩ :: rest) :
    Parser.parse_expr_stmt context s =
      (.ok (.exprStmt l0 (.atom l0 t se)),
       { s with
         tokens :=
           if context.require_semicolon then rest
           else ⟨.semicolonTk, l1⟩ :: rest,
         warnings := s.warnings ++
           (if se then []
            else [ParseError.exprWithoutSideEffect.with_location l0]) }) := by
  cases hrs : context.require_semicolon <;> cases se <;>
    simp [Parser.parse_expr_stmt, Parser.parse_expr, Parser.expect,
      Parser.current, Parser.advanceState, Parser.semicolon_if_required,
      Parser.push_warning, Expr.has_sideeffect, htok, hrs]

/-- Claim C9: the line lookup of a source file answers absent for every
out-of-range 1-indexed line number, including zero (where the usize index
computation wraps around) and numbers beyond the line table, and answers
the text of line n for every in-range n. -/
theorem source_file_line_lookup
    (f : SourceFile) (n : Nat)
    (hlen : f.lines.length < USIZE) (hn : n < USIZE) :
    ((n = 0 ∨ f.lines.length < n) → f.line n = none)
    ∧ (1 ≤ n → n ≤ f.lines.length →
        f.line n = f.lines.get? (n - 1) ∧ (f.line n).isSome = true) := by
  have hidx : (n + (USIZE - 1)) % USIZE = if n = 0 then USIZE - 1 else n - 1 := by
    unfold USIZE at *
    rcases Nat.eq_zero_or_pos n with h0 | h1
    · simp [h0]
    · have : n ≠ 0 := Nat.pos_iff_ne_zero.mp h1
      simp only [this, if_false]
      omega
  constructor
  · rintro (h0 | hgt)
    · unfold SourceFile.line
      rw [hidx, if_pos h0]
      refine List.get?_eq_none.mpr ?_
      unfold USIZE at *
      omega
    · unfold SourceFile.line
      have hne : n ≠ 0 := by omega
      rw [hidx, if_neg hne]
      refine List.get?_eq_none.mpr ?_
      omega
  · intro h1 h2
    have hne : n ≠ 0 := by omega
    have hl : f.line n = f.lines.get? (n - 1) := by
      unfold SourceFile.line
      rw [hidx, if_neg hne]
    refine ⟨hl, ?_⟩
    rw [hl, List.get?_eq_getElem?, List.getElem?_eq_getElem (by omega)]
    rfl

/-- Claim C10: when walking the context chain outward reaches a Function
frame before any SwitchOn frame, the in-switch lookup answers absent, the
case and default parsers behave exactly as under the empty chain, and
case, default and endcase statements all fail with InvalidStmt naming
switchon, just as if no switchon were enclosing them. -/
theorem in_switchon_stops_at_function
    (context : StmtContext)
    (h : context.reaches_function_first = true) :
    context.in_switchon = none
    ∧ (∀ s, Parser.parse_case context s = Parser.parse_case .empty s)
    ∧ (∀ s, Parser.parse_default_case context s =
        Parser.parse_default_case .empty s)
    ∧ (∀ (s : ParserState) (l0 l1 l2 : Location) (t : Option TypeIndex)
        (se : Bool) (rest : List Token),
      s.tokens = ⟨.caseTk, l0⟩ :: ⟨.exprAtom t se, l1⟩ :: ⟨.colonTk, l2⟩ :: rest →
      (Parser.parse_case context s).1 =
        .error ((ParseError.invalidStmt ("case") ("switchon")).with_location l0))
    ∧ (∀ (s : ParserState) (l0 l1 : Location) (rest : List Token),
      s.tokens = ⟨.defaultTk, l0⟩ :: ⟨.colonTk, l1⟩ :: rest →
      (Parser.parse_default_case context s).1 =
        .error ((ParseError.invalidStmt ("default") ("switchon")).with_location l0))
    ∧ (∀ (s : ParserState) (l0 l1 : Location) (rest : List Token),
      s.tokens = ⟨.endCaseTk, l0⟩ :: ⟨.semicolonTk, l1⟩ :: rest →
      (Parser.parse_endcase context s).1 =
        .error ((ParseError.invalidStmt ("endcase") ("switchon")).with_location l0)) := by
  have hsw : context.in_switchon = none := by
    induction context <;>
      simp_all [StmtContext.reaches_function_first, StmtContext.in_switchon]
  refine ⟨hsw, ?_, ?_, ?_, ?_, ?_⟩
  · intro s
    simp [Parser.parse_case, Parser.parse_expr, hsw, StmtContext.in_switchon]
  · intro s
    simp [Parser.parse_default_case, hsw, StmtContext.in_switchon]
  · intro s l0 l1 l2 t se rest htok
    simp [Parser.parse_case, Parser.expect, Parser.parse_expr,
      Parser.current, Parser.advanceState, htok, hsw]
  · intro s l0 l1 rest htok
    simp [Parser.parse_default_case, Parser.expect, Parser.current,
      Parser.advanceState, htok, hsw]
  · intro s l0 l1 rest htok
    cases hrs : context.require_semicolon <;>
      simp [Parser.parse_endcase, Parser.expect, Parser.current,
        Parser.advanceState, Parser.semicolon_if_required, htok, hsw, hrs]

/-- Claim C3 (code bug): parse_stmt dispatches an until token to
parse_while, but parse_while's expected-token set is written as
[While, While] (src/parser/stmt.rs line 222), so every until statement is
rejected with an unexpected-token error at the until keyword and no Until
node is ever produced; the identical while statement parses to a While
node with the condition coerced to bool and the body parsed under a Loop
frame. -/
theorem until_statement_rejected :
    Parser.parse_stmt 5 .empty
      ⟨[⟨.untilTk, locA⟩, ⟨.exprAtom (some 1) true, locB⟩, ⟨.doTk, locC⟩,
        ⟨.exprAtom (some 2) true, locD⟩], [], [], []⟩ =
      (.error (ParseError.unexpectedToken.with_location locA),
       ⟨[⟨.untilTk, locA⟩, ⟨.exprAtom (some 1) true, locB⟩, ⟨.doTk, locC⟩,
         ⟨.exprAtom (some 2) true, locD⟩], [], [], []⟩)
    ∧ Parser.parse_stmt 5 .empty
      ⟨[⟨.whileTk, locA⟩, ⟨.exprAtom (some 1) true, locB⟩, ⟨.doTk, locC⟩,
        ⟨.exprAtom (some 2) true, locD⟩], [], [], []⟩ =
      (.ok (.whileStmt locA
        (Expr.implicitCast locB (some bool_type_index)
          (.atom locB (some 1) true))
        (.exprStmt locD (.atom locD (some 2) true))),
       ⟨[], [], [], []⟩) := by
  constructor <;> rfl

/-- Claim C7: for a for statement whose initialiser has a known type, the
loop variable is declared with the initialiser's type; each present to/by
expression is wrapped in exactly one implicit cast to that type exactly
when its type differs and left bare when it agrees; the initialiser is
returned unchanged; the body parses under a fresh Loop frame; and absent
to/by clauses yield no limit or step expression. -/
theorem parse_for_cast_rules
    (ps : StmtContext → ParserState → PResult Stmt)
    (context : StmtContext) (s s1 : ParserState) (body : Stmt)
    (l0 l1 l2 l3 l4 l5 l6 l7 l8 : Location) (nm : String)
    (t1 : TypeIndex) (se1 : Bool) (t2 t3 : Option TypeIndex) (se2 se3 : Bool)
    (rest : List Token)
    (htok : s.tokens =
      ⟨.forTk, l0⟩ :: ⟨.identTk nm, l1⟩ :: ⟨.eqTk, l2⟩ ::
      ⟨.exprAtom (some t1) se1, l3⟩ :: ⟨.toTk, l4⟩ :: ⟨.exprAtom t2 se2, l5⟩ ::
      ⟨.byTk, l6⟩ :: ⟨.exprAtom t3 se3, l7⟩ :: ⟨.doTk, l8⟩ :: rest)
    (hps : ps (.loop context) { s with tokens := rest } = (.ok body, s1)) :
    Parser.parse_for ps context s =
      (.ok (.forStmt l0 ⟨l1, nm, some t1⟩ (.atom l3 (some t1) se1)
        (some (if some t1 ≠ t2
               then Expr.implicitCast l5 (some t1) (.atom l5 t2 se2)
               else .atom l5 t2 se2))
        (some (if some t1 ≠ t3
               then Expr.implicitCast l7 (some t1) (.atom l7 t3 se3)
               else .atom l7 t3 se3))
        body), s1)
    ∧ (∀ (s' s1' : ParserState) (body' : Stmt) (rest' : List Token),
      s'.tokens = ⟨.forTk, l0⟩ :: ⟨.identTk nm, l1⟩ :: ⟨.eqTk, l2⟩ ::
        ⟨.exprAtom (some t1) se1, l3⟩ :: ⟨.doTk, l8⟩ :: rest' →
      ps (.loop context) { s' with tokens := rest' } = (.ok body', s1') →
      Parser.parse_for ps context s' =
        (.ok (.forStmt l0 ⟨l1, nm, some t1⟩ (.atom l3 (some t1) se1)
          none none body'), s1')) := by
  constructor
  · simp [Parser.parse_for, Parser.expect, Parser.expect_ident,
      Parser.current, Parser.advanceState, Parser.advance_if,
      Parser.parse_expr, Expr.implicit_cast, Expr.typ, Expr.loc,
      htok, hps]
  · intro s' s1' body' rest' htok' hps'
    simp [Parser.parse_for, Parser.expect, Parser.expect_ident,
      Parser.current, Parser.advanceState, Parser.advance_if,
      Parser.parse_expr, Expr.typ, htok', hps']

/-- Concrete instantiation of parse_default_case_unique_default: inside a
SwitchOn frame with an empty marker cell, the default label succeeds and
records its location in the cell. -/
theorem parse_default_case_unique_default_witness :
    ((StmtContext.switchOn 0 none .empty).in_switchon = some (0, none)
     ∧ 0 < c1_state.locCells.length
     ∧ c1_state.tokens = ⟨.defaultTk, locA⟩ :: ⟨.colonTk, locB⟩ :: []
     ∧ c1_state.getLocCell 0 = none)
    ∧ Parser.parse_default_case (.switchOn 0 none .empty) c1_state =
        (.ok (.defaultCase locA),
         { c1_state with tokens := [],
                         locCells := c1_state.locCells.set 0 (some locA) }) :=
  ⟨⟨rfl, by decide, rfl, rfl⟩,
   ((parse_default_case_unique_default (.switchOn 0 none .empty) 0 none
      c1_state locA locB [] rfl (by decide) rfl).1 rfl).1⟩

/-- Concrete instantiation of invalid_stmt_outside_required_construct at
the empty (top-level) context chain. -/
theorem invalid_stmt_outside_required_construct_witness :
    (StmtContext.empty.last_valof_type = none
     ∧ StmtContext.empty.in_switchon = none)
    ∧ (Parser.parse_resultis .empty c2_state_r).1 =
        .error ((ParseError.invalidStmt ("resultis") ("valof")).with_location locA)
    ∧ (Parser.parse_case .empty c2_state_c).1 =
        .error ((ParseError.invalidStmt ("case") ("switchon")).with_location locA)
    ∧ (Parser.parse_default_case .empty c2_state_d).1 =
        .error ((ParseError.invalidStmt ("default") ("switchon")).with_location locA)
    ∧ (Parser.parse_endcase .empty c2_state_e).1 =
        .error ((ParseError.invalidStmt ("endcase") ("switchon")).with_location locA) :=
  ⟨⟨rfl, rfl⟩,
   (invalid_stmt_outside_required_construct .empty rfl rfl).1
     c2_state_r locA locB (some 1) true [] rfl,
   (invalid_stmt_outside_required_construct .empty rfl rfl).2.1
     c2_state_c locA locB locC (some 1) true [] rfl,
   (invalid_stmt_outside_required_construct .empty rfl rfl).2.2.1
     c2_state_d locA locB [] rfl,
   (invalid_stmt_outside_required_construct .empty rfl rfl).2.2.2
     c2_state_e locA locB [] rfl⟩

/-- Concrete instantiation of valof_function_cell_monotone inside
terminator-requiring Block chains: the first resultis fixes the empty
ValOf cell and the semicolon is consumed, a later mismatching resultis is
wrapped in a cast to the fixed type while the cell is kept, and the first
return fixes the empty Function cell of a chain containing no ValOf. -/
theorem valof_function_cell_monotone_witness :
    (c4_context.last_valof_type = some 0
     ∧ c4_context.require_semicolon = true
     ∧ c4_context_f.function_return_type = some 1
     ∧ c4_state_r.getTypeCell 0 = none
     ∧ c4_state_r2.getTypeCell 0 = some (some 2)
     ∧ c4_state_f.getTypeCell 1 = none)
    ∧ Parser.parse_resultis c4_context c4_state_r =
        (.ok (.resultIs locA (.atom locB (some 1) true)),
         ⟨[], [some (some 1), none], [], []⟩)
    ∧ Parser.parse_resultis c4_context c4_state_r2 =
        (.ok (.resultIs locA
          (Expr.implicitCast locA (some 2) (.atom locB (some 1) true))),
         ⟨[], [some (some 2), none], [], []⟩)
    ∧ Parser.parse_return c4_context_f c4_state_f =
        (.ok (.returnStmt locA (.atom locB (some 1) true)),
         ⟨[], [none, some (some 1)], [], []⟩) :=
  ⟨⟨rfl, rfl, rfl, rfl, rfl, rfl⟩,
   (valof_function_cell_monotone.1 c4_context 0 c4_state_r locA locB
      (some 1) true [⟨.semicolonTk, locC⟩] rfl rfl (by decide)).1 rfl |>.1,
   (valof_function_cell_monotone.1 c4_context 0 c4_state_r2 locA locB
      (some 1) true [⟨.semicolonTk, locC⟩] rfl rfl (by decide)).2
      (some 2) rfl |>.1,
   (valof_function_cell_monotone.2 c4_context_f 1 c4_state_f locA locB
      (some 1) true [⟨.semicolonTk, locC⟩] rfl rfl (by decide)).1 rfl |>.1⟩

/-- Concrete instantiation of parse_for_cast_rules: the to expression of a
different type gets exactly one implicit cast, the by expression of the
same type stays bare, and the loop variable carries the initialiser's
type. -/
theorem parse_for_cast_rules_witness :
    (c7_state.tokens =
      ⟨.forTk, locA⟩ :: ⟨.identTk ("i"), locB⟩ :: ⟨.eqTk, locC⟩ ::
      ⟨.exprAtom (some 1) true, locD⟩ :: ⟨.toTk, locE⟩ ::
      ⟨.exprAtom (some 2) true, locF⟩ :: ⟨.byTk, locG⟩ ::
      ⟨.exprAtom (some 1) false, locH⟩ :: ⟨.doTk, locI⟩ :: []
     ∧ c7_ps (.loop .empty) { c7_state with tokens := [] } =
        (.ok (.endCase locD), { c7_state with tokens := [] }))
    ∧ Parser.parse_for c7_ps .empty c7_state =
        (.ok (.forStmt locA ⟨locB, ("i"), some 1⟩ (.atom locD (some 1) true)
          (some (.implicitCast locF (some 1) (.atom locF (some 2) true)))
          (some (.atom locH (some 1) false))
          (.endCase locD)),
         { c7_state with tokens := [] }) :=
  ⟨⟨rfl, rfl⟩,
   (parse_for_cast_rules c7_ps .empty c7_state { c7_state with tokens := [] }
      (.endCase locD) locA locB locC locD locE locF locG locH locI ("i")
      1 true (some 2) (some 1) true false [] rfl rfl).1⟩

/-- Concrete instantiation of parse_expr_stmt_warning: a side-effect-free
expression statement in a Block context succeeds, pushes exactly one
warning and consumes the terminator. -/
theorem parse_expr_stmt_warning_witness :
    c8_state.tokens = ⟨.exprAtom (some 1) false, locA⟩ :: ⟨.semicolonTk, locB⟩ :: []
    ∧ Parser.parse_expr_stmt (.block .empty) c8_state =
        (.ok (.exprStmt locA (.atom locA (some 1) false)),
         { c8_state with tokens := [],
                         warnings := [ParseError.exprWithoutSideEffect.with_location locA] }) :=
  ⟨rfl,
   parse_expr_stmt_warning (.block .empty) c8_state locA locB (some 1) false [] rfl⟩

/-- Concrete instantiation of source_file_line_lookup: line 2 of a two-line
file is found, while line numbers 0 and 3 answer absent. -/
theorem source_file_line_lookup_witness :
    (c9_file.lines.length < USIZE ∧ (2 : Nat) < USIZE)
    ∧ (c9_file.line 2 = c9_file.lines.get? 1 ∧ (c9_file.line 2).isSome = true)
    ∧ c9_file.line 0 = none
    ∧ c9_file.line 3 = none :=
  ⟨⟨by decide, by decide⟩,
   (source_file_line_lookup c9_file 2 (by decide) (by decide)).2
     (by decide) (by decide),
   (source_file_line_lookup c9_file 0 (by decide) (by decide)).1
     (Or.inl rfl),
   (source_file_line_lookup c9_file 3 (by decide) (by decide)).1
     (Or.inr (by decide))⟩

/-- Concrete instantiation of in_switchon_stops_at_function: a chain rooted
at a Function frame answers no switch, and case and endcase fail with
InvalidStmt there. -/
theorem in_switchon_stops_at_function_witness :
    c10_context.reaches_function_first = true
    ∧ c10_context.in_switchon = none
    ∧ (Parser.parse_case c10_context c10_state_c).1 =
        .error ((ParseError.invalidStmt ("case") ("switchon")).with_location locA)
    ∧ (Parser.parse_endcase c10_context c10_state_e).1 =
        .error ((ParseError.invalidStmt ("endcase") ("switchon")).with_location locA) :=
  ⟨rfl,
   (in_switchon_stops_at_function c10_context rfl).1,
   (in_switchon_stops_at_function c10_context rfl).2.2.2.1
     c10_state_c locA locB locC (some 1) true [] rfl,
   (in_switchon_stops_at_function c10_context rfl).2.2.2.2.2
     c10_state_e locA locB [] rfl⟩
